import Mathlib

/-!
Verification development for the secretary-automation routine
(`src/automation/routines/secretary.py`).

The Python routine is shallowly embedded: every collaborator call
(template matching, OCR, tapping, screenshots) is supplied through an
explicit environment, with `Option` encoding calls that may raise an
exception (`none` = the call raised).  Device effects are recorded as an
explicit event trace, and the per-position `last_approve` timestamp is
threaded as state.  Timestamps are integers; coordinates are integer
pairs, sorted exactly as the source sorts them (by y, then x).
-/

/-- Screen coordinate, the `(x, y)` tuples returned by template matching. -/
structure Coord where
  x : Int
  y : Int
deriving DecidableEq, Repr

/-- Observable device effects performed by the routine. -/
inductive Event where
  | tapAccept (c : Coord)
  | tapReject (c : Coord)
  | tapConfirm
  | logRejected (alliance : String) (raw : String)
  | beep
  | swipeUp
deriving DecidableEq, Repr

/-- Mutable state of one `process_secretary_position` call: the
`processed` and `accepted` counters of the admission loop, the update (if
any) made to `self.last_approve[name]`, and the event trace. -/
structure LoopState where
  processed : Nat
  accepted : Nat
  lastApprove : Option Int
  events : List Event
deriving DecidableEq, Repr

/-- State at entry of `process_secretary_position`. -/
def initState : LoopState := { processed := 0, accepted := 0, lastApprove := none, events := [] }

/-- Collaborator results consumed by one iteration of the admission loop.
A `none` in an `Option` field means that call raised an exception. -/
structure IterEnv where
  screenshotOk : Option Bool
  imreadOk : Bool
  acceptMatches : Option (List Coord)
  ocr : Option (String × String)
  rejectMatches : Option (List Coord)
  confirmTap : Option Bool
  now : Int

/-- Comparison used by the source's `sorted(matches, key=lambda x: (x[1], x[0]))`:
ascending y, ties broken by ascending x. -/
def buttonLE (a b : Coord) : Bool :=
  decide (a.y < b.y) || (a.y == b.y && decide (a.x ≤ b.x))

/-- Insertion step of a stable insertion sort with respect to `buttonLE`. -/
def insertBtn (a : Coord) : List Coord → List Coord
  | [] => [a]
  | b :: bs => if buttonLE a b then a :: b :: bs else b :: insertBtn a bs

/-- Stable sort by `(y, x)`, matching Python's `sorted` on the key `(x[1], x[0])`. -/
def sortButtons (l : List Coord) : List Coord := l.foldr insertBtn []

/-- `find_accept_buttons`: sorts all `accept` template matches by `(y, x)`;
its internal `try/except` turns a raising `find_all_templates` into `[]`. -/
def find_accept_buttons (ms : Option (List Coord)) : List Coord :=
  match ms with
  | none => []
  | some l => sortButtons l

/-- `find_reject_buttons`: identical shape to `find_accept_buttons` for the
`reject` template. -/
def find_reject_buttons (ms : Option (List Coord)) : List Coord :=
  match ms with
  | none => []
  | some l => sortButtons l

/-- Outcome of one iteration of the `while processed < 5` loop:
`brk` for a `break`, `next` for falling through (or `continue`) to the next
iteration, `raised` for an exception escaping to the outer handler. -/
inductive IterOut where
  | brk (s : LoopState)
  | next (s : LoopState)
  | raised (s : LoopState)
deriving DecidableEq, Repr

/-- State carried by an iteration outcome. -/
def IterOut.state : IterOut → LoopState
  | IterOut.brk s => s
  | IterOut.next s => s
  | IterOut.raised s => s

/-- One iteration of the admission loop body of `process_secretary_position`
(source lines 195-274), for whitelist `wl` and `manual_deny` flag `md`:
screenshot, reload image, re-locate accept buttons, take the topmost, then
either the whitelist branch (accept on membership, otherwise log and walk the
reject/confirm sequence) or the accept-all branch. -/
def stepIter (wl : List String) (md : Bool) (env : IterEnv) (s : LoopState) : IterOut :=
  match env.screenshotOk with
  | none => IterOut.raised s
  | some false => IterOut.brk s
  | some true =>
    if env.imreadOk then
      match find_accept_buttons env.acceptMatches with
      | [] => IterOut.brk s
      | topmost_accept :: _ =>
        if 0 < wl.length then
          match env.ocr with
          | none => IterOut.raised s
          | some (alliance_text, original_text) =>
            if wl.contains alliance_text then
              IterOut.next { s with
                events := s.events ++ [Event.tapAccept topmost_accept],
                accepted := s.accepted + 1,
                processed := s.processed + 1 }
            else
              -- rejection path: always logged first
              let s1 : LoopState :=
                { s with events := s.events ++ [Event.logRejected alliance_text original_text] }
              let s2 : LoopState :=
                if md then { s1 with events := s1.events ++ [Event.beep] } else s1
              match find_reject_buttons env.rejectMatches with
              | reject_button :: _ =>
                if (reject_button.y - topmost_accept.y).natAbs ≤ 10 then
                  let s3 : LoopState :=
                    { s2 with events := s2.events ++ [Event.tapReject reject_button] }
                  match env.confirmTap with
                  | none => IterOut.raised s3
                  | some true =>
                    IterOut.next { s3 with
                      events := s3.events ++ [Event.tapConfirm],
                      processed := s3.processed + 1 }
                  | some false => IterOut.next s3    -- `continue`: processed not advanced
                else
                  -- misaligned topmost reject: no tap at all, falls through
                  IterOut.next { s2 with processed := s2.processed + 1 }
              | [] =>
                match env.confirmTap with
                | none => IterOut.raised s2
                | some true =>
                  IterOut.next { s2 with
                    events := s2.events ++ [Event.tapConfirm],
                    lastApprove := some env.now,
                    processed := s2.processed + 1 }
                | some false => IterOut.next s2      -- `continue`
        else
          -- no whitelist: accept all
          IterOut.next { s with
            events := s.events ++ [Event.tapAccept topmost_accept],
            lastApprove := some env.now,
            processed := s.processed + 1 }
    else IterOut.brk s

/-- Final outcome of the admission loop: normal completion or an exception
propagating upward. -/
inductive LoopFin where
  | done (s : LoopState)
  | raised (s : LoopState)
deriving DecidableEq, Repr

/-- State carried by a loop outcome. -/
def LoopFin.state : LoopFin → LoopState
  | LoopFin.done s => s
  | LoopFin.raised s => s

/-- The `while processed < 5` loop, fuelled: `none` means the supplied fuel
ran out before the loop exited (the loop itself carries no iteration cap,
only the `processed` counter is compared to 5). -/
def runLoop (wl : List String) (md : Bool) (env : Nat → IterEnv) :
    Nat → Nat → LoopState → Option LoopFin
  | 0, _, _ => none
  | Nat.succ fuel, i, s =>
    if s.processed < 5 then
      match stepIter wl md (env i) s with
      | IterOut.brk s1 => some (LoopFin.done s1)
      | IterOut.raised s1 => some (LoopFin.raised s1)
      | IterOut.next s1 => runLoop wl md env fuel (i + 1) s1
    else some (LoopFin.done s)

/-- `exit_to_secretary_menu`'s `for _ in range(max_attempts)` loop.
`anchor k` is the result of `verify_secretary_menu()` after `k` back
presses; the first component of the result is the returned boolean, the
second the total number of back presses issued. -/
def exitLoop (anchor : Nat → Bool) : Nat → Nat → Bool × Nat
  | 0, presses => (false, presses)
  | Nat.succ n, presses =>
    if anchor presses then (true, presses)
    else exitLoop anchor n (presses + 1)

/-- `exit_to_secretary_menu` (source lines 125-141): up to `max_attempts = 10`
times, verify the anchor and return `true` immediately on success, otherwise
press back and retry; return `false` when the attempts are exhausted. -/
def exit_to_secretary_menu (anchor : Nat → Bool) : Bool × Nat :=
  exitLoop anchor 10 0

/-- Collaborator results for one whole `process_secretary_position` call.
`none` in an `Option` field means that call raised an exception.
`exitAnchorBody` feeds the `exit_to_secretary_menu` call made inside the
`try` block, `exitAnchorHandler` the one made by the `except` handler. -/
structure PSEnv where
  findTapPos : Option Bool
  fullList : Option Bool
  findTapList : Option Bool
  initialAccepts : Option (List Coord)
  iters : Nat → IterEnv
  exitAnchorBody : Nat → Bool
  exitAnchorHandler : Nat → Bool

/-- Outcome of the `try` block of `process_secretary_position`: a `return`
with a boolean, or an exception escaping to the handler. -/
inductive BodyOut where
  | ret (b : Bool) (s : LoopState)
  | raised (s : LoopState)
deriving DecidableEq, Repr

/-- The `try` block of `process_secretary_position` (source lines 153-281):
tap the position (absent → `return True`), check `full_list` (present →
recover and return), tap the `list` button (failure → `return False`),
run the admission loop when accept buttons are present (with a scroll-up
when more than 5 are visible), and finally recover to the menu anchor.
`none` means the admission loop did not exit within the supplied fuel. -/
def psBody (wl : List String) (md : Bool) (env : PSEnv) (fuel : Nat) : Option BodyOut :=
  match env.findTapPos with
  | none => some (BodyOut.raised initState)
  | some false => some (BodyOut.ret true initState)
  | some true =>
    match env.fullList with
    | none => some (BodyOut.raised initState)
    | some true =>
      if (exit_to_secretary_menu env.exitAnchorBody).1 then some (BodyOut.ret true initState)
      else some (BodyOut.ret false initState)
    | some false =>
      match env.findTapList with
      | none => some (BodyOut.raised initState)
      | some false => some (BodyOut.ret false initState)
      | some true =>
        let accepts := find_accept_buttons env.initialAccepts
        let s1 : LoopState :=
          if 5 < accepts.length then { initState with events := [Event.swipeUp] } else initState
        match (if accepts.isEmpty then some (LoopFin.done s1)
               else runLoop wl md env.iters fuel 0 s1) with
        | none => none
        | some (LoopFin.raised s) => some (BodyOut.raised s)
        | some (LoopFin.done s) =>
          if (exit_to_secretary_menu env.exitAnchorBody).1 then some (BodyOut.ret true s)
          else some (BodyOut.ret false s)

/-- Result of `process_secretary_position`: the returned boolean together
with the final state, or fuel exhaustion of the inner loop. -/
inductive PSResult where
  | ret (b : Bool) (s : LoopState)
  | fuelOut
deriving DecidableEq, Repr

/-- `process_secretary_position` (source lines 151-288): run the `try`
block; on an exception, the `except` handler attempts recovery and returns
`True` when it succeeds, `False` when recovery itself fails. -/
def process_secretary_position (wl : List String) (md : Bool) (env : PSEnv) (fuel : Nat) :
    PSResult :=
  match psBody wl md env fuel with
  | none => PSResult.fuelOut
  | some (BodyOut.raised s) =>
    if (exit_to_secretary_menu env.exitAnchorHandler).1 then PSResult.ret true s
    else PSResult.ret false s
  | some (BodyOut.ret b s) => PSResult.ret b s

/-- The fixed position catalog: `secretary_types + additionalTypes`. -/
def secretaryTypes : List String :=
  ["strategy", "security", "development", "science", "interior", "military", "administrative"]

/-- Proximity test of `find_positions_with_applicants`: the badge at `b`
belongs to the position icon at `p` when it is within `offx` horizontally
and `offy` vertically. -/
def nearBadge (offx offy : Int) (p b : Coord) : Bool :=
  decide (|b.x - p.x| ≤ offx ∧ |b.y - p.y| ≤ offy)

/-- `find_positions_with_applicants` (source lines 342-392): take the first
template match of each position kind, return `[]` outright when no
`has_applicant` badges were detected, and otherwise keep each found position
whose icon has some badge within the configured offset box (the source
breaks at the first matching badge, which only affects logging). -/
def find_positions_with_applicants (secTypes : List String) (templ : String → List Coord)
    (badges : List Coord) (offx offy : Int) : List String :=
  let allPositions : List (String × Coord) :=
    secTypes.filterMap (fun t => ((templ t).head?).map (fun c => (t, c)))
  if badges.isEmpty then []
  else
    (allPositions.filter (fun tp => badges.any (nearBadge offx offy tp.2))).map Prod.fst

/-- Lookup in the `auto_remove.title_cfg` mapping (`title_cfg.get(position_type, None)`). -/
def lookupCfg (l : List (String × Int)) (k : String) : Option Int :=
  (l.find? (fun p => p.1 == k)).map Prod.snd

/-- Pointwise update of the `self.last_approve` mapping. -/
def updateTime (f : String → Int) (k : String) (v : Int) : String → Int :=
  fun q => if q == k then v else f q

/-- One iteration of the position loop of `find_positions_to_remove`
(source lines 410-433): skip when no delay is configured or the configured
delay is falsy (`0`), skip while the elapsed time since `last_approve` is
below the delay, skip and reset the timer when the position is vacant, and
otherwise append the position when its icon is found. -/
def removeStep (titleCfg : List (String × Int)) (now : Int) (vacant icon : String → Bool)
    (acc : List String × (String → Int)) (t : String) : List String × (String → Int) :=
  match lookupCfg titleCfg t with
  | none => acc
  | some d =>
    if d = 0 then acc
    else if now - acc.2 t < d then acc
    else if vacant t then (acc.1, updateTime acc.2 t now)
    else if icon t then (acc.1 ++ [t], acc.2)
    else acc

/-- `find_positions_to_remove` (source lines 394-439): return `[]` when the
`auto_remove` configuration is absent/falsy or `title_cfg` is empty, and
otherwise fold the per-position check over the catalog.  The second
component is the `self.last_approve` mapping after the call (the source
mutates it for vacant positions). -/
def find_positions_to_remove (cfg : Option (List (String × Int))) (secTypes : List String)
    (lastApprove : String → Int) (now : Int) (vacant icon : String → Bool) :
    List String × (String → Int) :=
  match cfg with
  | none => ([], lastApprove)
  | some titleCfg =>
    if titleCfg.isEmpty then ([], lastApprove)
    else secTypes.foldl (removeStep titleCfg now vacant icon) ([], lastApprove)

/-- Anchor that first succeeds after exactly 10 back-navigations. -/
def anchorLate : Nat → Bool := fun i => decide (i = 10)

/-- Anchor that first succeeds after exactly 2 back-navigations. -/
def anchorW : Nat → Bool := fun i => decide (2 ≤ i)

/-- Iteration environment in which every rejection's confirm tap fails:
one candidate with alliance text outside the whitelist, an aligned reject
button, and `find_and_tap_template("confirm")` returning `False`. -/
def advIter : IterEnv :=
  { screenshotOk := some true, imreadOk := true, acceptMatches := some [⟨0, 0⟩],
    ocr := some ("ZZZ", "zzz"), rejectMatches := some [⟨0, 0⟩], confirmTap := some false,
    now := 0 }

/-- The adversarial collaborator sequence: `advIter` on every iteration. -/
def advEnv : Nat → IterEnv := fun _ => advIter

/-- Environment whose first iteration finds no accept buttons. -/
def quietIter : IterEnv :=
  { screenshotOk := some true, imreadOk := true, acceptMatches := some [],
    ocr := none, rejectMatches := some [], confirmTap := some true, now := 0 }

/-- Collaborator sequence that ends the admission loop immediately. -/
def quietEnv : Nat → IterEnv := fun _ => quietIter

/-- Scenario of one whitelisted applicant with alliance text `a`: iteration 0
sees a single accept button at `c` whose extracted alliance text is `a`;
iteration 1 sees an empty candidate list. -/
def oneApplicantEnv (a : String) (c : Coord) : Nat → IterEnv := fun i =>
  if i = 0 then
    { screenshotOk := some true, imreadOk := true, acceptMatches := some [c],
      ocr := some (a, a), rejectMatches := some [], confirmTap := some true, now := 42 }
  else
    { screenshotOk := some true, imreadOk := true, acceptMatches := some [],
      ocr := none, rejectMatches := some [], confirmTap := some true, now := 43 }

/-- Rejection scenario for the reject-button selection: the accept button is
at y = 300, the topmost reject button at y = 289 (11 px away), and a second,
perfectly aligned reject button at y = 300. -/
def misalignedIter : IterEnv :=
  { screenshotOk := some true, imreadOk := true, acceptMatches := some [⟨40, 300⟩],
    ocr := some ("XYZ", "xyz"), rejectMatches := some [⟨50, 289⟩, ⟨50, 300⟩],
    confirmTap := some true, now := 7 }

/-- Rejection scenario with a single aligned reject button (5 px away). -/
def alignedIter : IterEnv :=
  { screenshotOk := some true, imreadOk := true, acceptMatches := some [⟨40, 300⟩],
    ocr := some ("XYZ", "xyz"), rejectMatches := some [⟨50, 305⟩],
    confirmTap := some true, now := 7 }

/-- Accept-all scenario: one accept button at (30, 60), clock at 99. -/
def quietIterOne : IterEnv :=
  { screenshotOk := some true, imreadOk := true, acceptMatches := some [⟨30, 60⟩],
    ocr := none, rejectMatches := some [], confirmTap := some true, now := 99 }

/-- Whole-call environment whose very first collaborator call (the position
tap of step 1) raises, with an always-succeeding recovery anchor. -/
def raiseEnv : PSEnv :=
  { findTapPos := none, fullList := some false, findTapList := some true,
    initialAccepts := some [],
    iters := fun _ =>
      { screenshotOk := some true, imreadOk := true, acceptMatches := some [],
        ocr := none, rejectMatches := some [], confirmTap := some true, now := 0 },
    exitAnchorBody := fun _ => true, exitAnchorHandler := fun _ => true }

/-- Membership scenario: one accept button, alliance "AAA" in the whitelist. -/
def memberIter : IterEnv :=
  { screenshotOk := some true, imreadOk := true, acceptMatches := some [⟨10, 20⟩],
    ocr := some ("AAA", "AAA raw"), rejectMatches := some [], confirmTap := some true,
    now := 5 }

/-- Position-template map for the scanner scenarios: only the `science`
icon is on screen, at (500, 600). -/
def templW : String → List Coord := fun t => if t = "science" then [⟨500, 600⟩] else []

/-! ### Recovery loop: `exit_to_secretary_menu` -/

lemma exitLoop_found (anchor : Nat → Bool) :
    ∀ k n start, k < n → (∀ j, j < k → anchor (start + j) = false) →
      anchor (start + k) = true → exitLoop anchor n start = (true, start + k) := by
  intro k
  induction k with
  | zero =>
    intro n start hn _ ha
    cases n with
    | zero => omega
    | succ m =>
      rw [Nat.add_zero] at ha
      simp [exitLoop, ha]
  | succ k ih =>
    intro n start hn hlt ha
    cases n with
    | zero => omega
    | succ m =>
      have h0 : anchor start = false := by simpa using hlt 0 (by omega)
      have h1 : ∀ j, j < k → anchor (start + 1 + j) = false := by
        intro j hj
        have := hlt (j + 1) (by omega)
        rwa [show start + (j + 1) = start + 1 + j by omega] at this
      have h2 : anchor (start + 1 + k) = true := by
        rwa [show start + (k + 1) = start + 1 + k by omega] at ha
      have h3 := ih m (start + 1) (by omega) h1 h2
      simp only [exitLoop, h0, Bool.false_eq_true, if_false]
      rw [h3]
      congr 1
      omega

lemma exitLoop_exhausted (anchor : Nat → Bool) :
    ∀ n start, (∀ j, j < n → anchor (start + j) = false) →
      exitLoop anchor n start = (false, start + n) := by
  intro n
  induction n with
  | zero => intro start _; simp [exitLoop]
  | succ m ih =>
    intro start h
    have h0 : anchor start = false := by simpa using h 0 (by omega)
    have h1 : ∀ j, j < m → anchor (start + 1 + j) = false := by
      intro j hj
      have := h (j + 1) (by omega)
      rwa [show start + (j + 1) = start + 1 + j by omega] at this
    simp only [exitLoop, h0, Bool.false_eq_true, if_false]
    rw [ih (start + 1) h1]
    congr 1
    omega

lemma exitLoop_snd_le (anchor : Nat → Bool) :
    ∀ n start, (exitLoop anchor n start).2 ≤ start + n := by
  intro n
  induction n with
  | zero => intro start; simp [exitLoop]
  | succ m ih =>
    intro start
    simp only [exitLoop]
    by_cases h : anchor start
    · simp only [h, if_true]
      omega
    · simp only [h, Bool.false_eq_true, if_false]
      have := ih (start + 1)
      omega

/-- C2 (corrected): the recovery loop checks the anchor before each of its
10 back-navigations, so an anchor that first becomes true after exactly 10
back-navigations is never observed: the loop returns `false` after 10
back presses, contradicting the claim that `k = 10` still yields `true`. -/
theorem C2_counterexample :
    ((List.range 10).all (fun j => !anchorLate j)) = true ∧ anchorLate 10 = true ∧
      exit_to_secretary_menu anchorLate = (false, 10) := by decide

/-- C2 (amended): `exit_to_secretary_menu` returns `true` immediately with
zero back-presses when the anchor already holds; when the anchor first
becomes true after `k` back-navigations with `k ≤ 9` it returns `true`
after exactly `k` back-navigations; and when the anchor stays false for
the first 10 checks it returns `false` after exactly 10 attempts. -/
theorem C2_amended (anchor : Nat → Bool) :
    (anchor 0 = true → exit_to_secretary_menu anchor = (true, 0)) ∧
    (∀ k, k ≤ 9 → (∀ j, j < k → anchor j = false) → anchor k = true →
      exit_to_secretary_menu anchor = (true, k)) ∧
    ((∀ j, j < 10 → anchor j = false) → exit_to_secretary_menu anchor = (false, 10)) := by
  refine ⟨?_, ?_, ?_⟩
  · intro h
    have h2 := exitLoop_found anchor 0 10 0 (by omega) (by omega) (by simpa using h)
    simpa [exit_to_secretary_menu] using h2
  · intro k hk hlt ha
    have h2 := exitLoop_found anchor k 10 0 (by omega)
      (by intro j hj; simpa using hlt j hj) (by simpa using ha)
    simpa [exit_to_secretary_menu] using h2
  · intro h
    have h2 := exitLoop_exhausted anchor 10 0 (by intro j hj; simpa using h j hj)
    simpa [exit_to_secretary_menu] using h2

/-- C2 witness: an anchor first true after 2 back-navigations makes the
recovery loop return `true` with exactly 2 back presses. -/
theorem C2_witness : exit_to_secretary_menu anchorW = (true, 2) :=
  (C2_amended anchorW).2.1 2 (by decide) (by decide) (by decide)

/-! ### Admission loop bounds -/

lemma runLoop_succ (wl : List String) (md : Bool) (env : Nat → IterEnv) (fuel i : Nat)
    (s : LoopState) :
    runLoop wl md env (fuel + 1) i s =
      if s.processed < 5 then
        match stepIter wl md (env i) s with
        | IterOut.brk s1 => some (LoopFin.done s1)
        | IterOut.raised s1 => some (LoopFin.raised s1)
        | IterOut.next s1 => runLoop wl md env fuel (i + 1) s1
      else some (LoopFin.done s) := rfl

lemma stepIter_state_processed_le (wl : List String) (md : Bool) (env : IterEnv)
    (s : LoopState) : (stepIter wl md env s).state.processed ≤ s.processed + 1 := by
  unfold stepIter
  repeat' split
  all_goals simp [IterOut.state]

lemma runLoop_processed_le (wl : List String) (md : Bool) (env : Nat → IterEnv) :
    ∀ fuel i s fin, s.processed ≤ 5 → runLoop wl md env fuel i s = some fin →
      fin.state.processed ≤ 5 := by
  intro fuel
  induction fuel with
  | zero => intro i s fin _ h; simp [runLoop] at h
  | succ m ih =>
    intro i s fin hs h
    rw [runLoop] at h
    by_cases hp : s.processed < 5
    · rw [if_pos hp] at h
      have hb := stepIter_state_processed_le wl md (env i) s
      cases hout : stepIter wl md (env i) s with
      | brk s1 =>
        rw [hout] at h hb
        cases h
        simp only [IterOut.state] at hb
        simp only [LoopFin.state]
        omega
      | raised s1 =>
        rw [hout] at h hb
        cases h
        simp only [IterOut.state] at hb
        simp only [LoopFin.state]
        omega
      | next s1 =>
        rw [hout] at h hb
        simp [IterOut.state] at hb
        exact ih (i + 1) s1 fin (by omega) h
    · rw [if_neg hp] at h
      cases h
      simp [LoopFin.state]
      omega

lemma advIter_step (s : LoopState) :
    stepIter ["OK"] false advIter s =
      IterOut.next { s with
        events := s.events ++ [Event.logRejected "ZZZ" "zzz", Event.tapReject ⟨0, 0⟩] } := by
  have hc : (["OK"] : List String).contains "ZZZ" = false := by decide
  simp [stepIter, advIter, find_accept_buttons, find_reject_buttons, sortButtons, insertBtn, hc]

lemma advEnv_runs_forever :
    ∀ fuel i s, s.processed = 0 → runLoop ["OK"] false advEnv fuel i s = none := by
  intro fuel
  induction fuel with
  | zero => intro i s _; simp [runLoop]
  | succ m ih =>
    intro i s h
    rw [runLoop]
    rw [if_pos (by omega)]
    simp only [advEnv]
    rw [advIter_step s]
    exact ih (i + 1) _ (by simpa using h)

/-- C4 (counterexample): the admission loop is not hard-capped in
iterations.  With a whitelist of `["OK"]` and a collaborator sequence in
which every iteration sees a non-member candidate, an aligned reject button
and a failing confirm tap, the `continue` branch skips `processed += 1`
forever: no amount of fuel makes the loop exit, contradicting the claim
that it terminates after at most 5 processed candidates for every possible
sequence of collaborator results. -/
theorem C4_counterexample :
    (∃ fuel fin, runLoop ["OK"] false advEnv fuel 0 initState = some fin) = False := by
  refine eq_false ?_
  rintro ⟨fuel, fin, h⟩
  rw [advEnv_runs_forever fuel 0 initState rfl] at h
  exact Option.noConfusion h

/-- C4 (amended): the recovery loop issues at most 10 back-navigations, and
whenever the admission loop of `process_secretary_position` exits, it has
processed at most 5 candidates; but termination itself is not guaranteed
for every collaborator sequence, because an iteration whose confirm tap
fails repeats without advancing the `processed` counter. -/
theorem C4_amended (anchor : Nat → Bool) (wl : List String) (md : Bool)
    (env : Nat → IterEnv) (fuel : Nat) (fin : LoopFin)
    (h : runLoop wl md env fuel 0 initState = some fin) :
    (exit_to_secretary_menu anchor).2 ≤ 10 ∧ fin.state.processed ≤ 5 := by
  constructor
  · simpa [exit_to_secretary_menu] using exitLoop_snd_le anchor 10 0
  · exact runLoop_processed_le wl md env fuel 0 initState fin (by simp [initState]) h

/-- C4 witness: a run that exits at once (no accept buttons) instantiates
the amended bound. -/
theorem C4_witness :
    (exit_to_secretary_menu (fun _ => true)).2 ≤ 10 ∧
      (LoopFin.done initState).state.processed ≤ 5 :=
  C4_amended (fun _ => true) [] false quietEnv 1 (LoopFin.done initState) (by decide)

/-! ### Admission policy -/

/-- C1 (counterexample): one applicant whose alliance `"ABC"` is in the
whitelist `["ABC"]` — the loop taps accept exactly once and exits, but the
final state shows `last_approve` was NOT updated (`lastApprove = none`),
contradicting the claim that `last_approve_time` is mutated on every
successful admission. -/
theorem C1_counterexample :
    runLoop ["ABC"] false (oneApplicantEnv "ABC" ⟨100, 200⟩) 10 0 initState =
      some (LoopFin.done { processed := 1, accepted := 1, lastApprove := none,
                           events := [Event.tapAccept ⟨100, 200⟩] }) := by decide

/-- C1 (amended): in the admission loop with a non-empty whitelist, a
candidate whose extracted alliance text is a member of the whitelist gets
exactly one accept tap and is counted, and for a position with a single
whitelisted applicant the loop exits as soon as the list is empty — but
the position's `last_approve` timestamp is NOT updated on this path (the
source only updates it in the accept-all branch and in the
no-reject-buttons confirm fallback). -/
theorem C1_amended (wl : List String) (a : String) (c : Coord)
    (h : wl.contains a = true) :
    runLoop wl false (oneApplicantEnv a c) 10 0 initState =
      some (LoopFin.done { processed := 1, accepted := 1, lastApprove := none,
                           events := [Event.tapAccept c] }) := by
  have hlen : 0 < wl.length := by
    cases wl with
    | nil => simp [List.contains] at h
    | cons x xs => simp
  have hmem : a ∈ wl := by simpa using h
  have hstep0 : stepIter wl false (oneApplicantEnv a c 0) initState =
      IterOut.next { processed := 1, accepted := 1, lastApprove := none,
                     events := [Event.tapAccept c] } := by
    simp [stepIter, oneApplicantEnv, find_accept_buttons, sortButtons, insertBtn, hlen, h,
      hmem, initState]
  have hstep1 : stepIter wl false (oneApplicantEnv a c 1)
      { processed := 1, accepted := 1, lastApprove := none,
        events := [Event.tapAccept c] } =
      IterOut.brk { processed := 1, accepted := 1, lastApprove := none,
                    events := [Event.tapAccept c] } := by
    simp [stepIter, oneApplicantEnv, find_accept_buttons, sortButtons]
  rw [show (10 : Nat) = 9 + 1 from rfl, runLoop_succ, if_pos (by simp [initState]), hstep0]
  show runLoop wl false (oneApplicantEnv a c) 9 1
      { processed := 1, accepted := 1, lastApprove := none, events := [Event.tapAccept c] } =
    some (LoopFin.done { processed := 1, accepted := 1, lastApprove := none,
                         events := [Event.tapAccept c] })
  rw [show (9 : Nat) = 8 + 1 from rfl, runLoop_succ, if_pos (by simp), hstep1]

/-- C1 witness: the amended statement at whitelist `["ABC", "DEF"]`,
alliance `"DEF"`, accept button at (100, 200). -/
theorem C1_witness :
    runLoop ["ABC", "DEF"] false (oneApplicantEnv "DEF" ⟨100, 200⟩) 10 0 initState =
      some (LoopFin.done { processed := 1, accepted := 1, lastApprove := none,
                           events := [Event.tapAccept ⟨100, 200⟩] }) :=
  C1_amended ["ABC", "DEF"] "DEF" ⟨100, 200⟩ (by decide)

/-- C7 (confirmed): with an empty whitelist every candidate is accepted
unconditionally — the topmost accept button is tapped and `last_approve`
is set to the current time of the iteration; in particular it is strictly
later than any earlier stored timestamp whenever the clock advanced. -/
theorem C7_accept_all (md : Bool) (env : IterEnv) (s : LoopState) (c : Coord)
    (cr : List Coord)
    (hshot : env.screenshotOk = some true)
    (himg : env.imreadOk = true)
    (hacc : find_accept_buttons env.acceptMatches = c :: cr) :
    stepIter [] md env s =
      IterOut.next { s with
        events := s.events ++ [Event.tapAccept c],
        lastApprove := some env.now,
        processed := s.processed + 1 } ∧
    (∀ t0 : Int, s.lastApprove = some t0 → t0 < env.now →
      ∃ t1, (stepIter [] md env s).state.lastApprove = some t1 ∧ t0 < t1) := by
  have hmain : stepIter [] md env s =
      IterOut.next { s with
        events := s.events ++ [Event.tapAccept c],
        lastApprove := some env.now,
        processed := s.processed + 1 } := by
    simp [stepIter, hshot, himg, hacc]
  refine ⟨hmain, ?_⟩
  intro t0 _ hlt
  rw [hmain]
  exact ⟨env.now, rfl, hlt⟩

/-- C7 witness: a concrete accept-all iteration. -/
theorem C7_witness :
    stepIter [] false quietIterOne initState =
      IterOut.next { initState with
        events := initState.events ++ [Event.tapAccept ⟨30, 60⟩],
        lastApprove := some 99,
        processed := initState.processed + 1 } :=
  (C7_accept_all false quietIterOne initState ⟨30, 60⟩ [] rfl rfl (by decide)).1

/-! ### Exception handling -/

/-- C9 (confirmed): whenever the `try` block of
`process_secretary_position` raises, the exception is caught, recovery via
`exit_to_secretary_menu` is attempted, and the method returns exactly the
recovery result: `true` when recovery succeeds, `false` only when that
recovery attempt itself fails. -/
theorem C9_exception_handler (wl : List String) (md : Bool) (env : PSEnv) (fuel : Nat)
    (s : LoopState) (h : psBody wl md env fuel = some (BodyOut.raised s)) :
    process_secretary_position wl md env fuel =
      PSResult.ret (exit_to_secretary_menu env.exitAnchorHandler).1 s ∧
    (process_secretary_position wl md env fuel = PSResult.ret false s →
      (exit_to_secretary_menu env.exitAnchorHandler).1 = false) := by
  have hmain : process_secretary_position wl md env fuel =
      PSResult.ret (exit_to_secretary_menu env.exitAnchorHandler).1 s := by
    simp only [process_secretary_position, h]
    by_cases hb : (exit_to_secretary_menu env.exitAnchorHandler).1 = true
    · simp [hb]
    · rw [Bool.not_eq_true] at hb
      simp [hb]
  refine ⟨hmain, ?_⟩
  intro hfalse
  rw [hmain] at hfalse
  injection hfalse with h1 _

/-- C9 witness: a raise at step 1 (position tap raising) with an
always-true anchor makes the method return `true`. -/
theorem C9_witness :
    process_secretary_position [] false raiseEnv 1 = PSResult.ret true initState :=
  (C9_exception_handler [] false raiseEnv 1 initState rfl).1

/-! ### Reject-button selection -/

/-- C3 (counterexample): accept button at y = 300; reject buttons at
y = 289 (topmost, 11 px away) and y = 300 (perfectly aligned).  The claim
says the topmost reject control within 10 px — here ⟨50, 300⟩ — is tapped,
or else confirm is tapped directly.  The code instead inspects only the
topmost reject control overall, finds it 11 px away, and taps neither a
reject control nor confirm: the final trace holds only the rejection log
entry, although an aligned reject control was present. -/
theorem C3_counterexample :
    stepIter ["W"] false misalignedIter initState =
      IterOut.next { processed := 1, accepted := 0, lastApprove := none,
                     events := [Event.logRejected "XYZ" "xyz"] } ∧
    (⟨50, 300⟩ : Coord) ∈ find_reject_buttons misalignedIter.rejectMatches ∧
    (((50 : Int), (300 : Int)).2 - ((40 : Int), (300 : Int)).2).natAbs ≤ 10 := by decide

/-- C3 (amended): when rejecting a candidate the code considers only the
topmost reject control overall; it is tapped (followed by the confirm tap)
iff its vertical distance from the candidate's accept control is at most
10 px; when that distance exceeds 10 px no reject and no confirm tap
occurs and the candidate is merely counted processed; the confirm control
is tapped directly (and, in the source, `last_approve` is set) only when
no reject controls are detected at all. -/
theorem C3_amended (wl : List String) (env : IterEnv) (s : LoopState)
    (a r : String) (c : Coord) (cr : List Coord)
    (hwl : 0 < wl.length)
    (hshot : env.screenshotOk = some true)
    (himg : env.imreadOk = true)
    (hacc : find_accept_buttons env.acceptMatches = c :: cr)
    (hocr : env.ocr = some (a, r))
    (hmem : wl.contains a = false) :
    (∀ rb rr, find_reject_buttons env.rejectMatches = rb :: rr →
      (rb.y - c.y).natAbs ≤ 10 → env.confirmTap = some true →
      stepIter wl false env s =
        IterOut.next { s with
          events := s.events ++
            [Event.logRejected a r, Event.tapReject rb, Event.tapConfirm],
          processed := s.processed + 1 }) ∧
    (∀ rb rr, find_reject_buttons env.rejectMatches = rb :: rr →
      10 < (rb.y - c.y).natAbs →
      stepIter wl false env s =
        IterOut.next { s with
          events := s.events ++ [Event.logRejected a r],
          processed := s.processed + 1 }) ∧
    (find_reject_buttons env.rejectMatches = [] → env.confirmTap = some true →
      stepIter wl false env s =
        IterOut.next { s with
          events := s.events ++ [Event.logRejected a r, Event.tapConfirm],
          lastApprove := some env.now,
          processed := s.processed + 1 }) := by
  have hnotmem : ¬ a ∈ wl := by simpa using hmem
  refine ⟨?_, ?_, ?_⟩
  · intro rb rr hrej halign hconf
    simp [stepIter, hshot, himg, hacc, hocr, hwl, hnotmem, hrej, halign, hconf]
  · intro rb rr hrej halign
    have hna : ¬ (rb.y - c.y).natAbs ≤ 10 := by omega
    simp [stepIter, hshot, himg, hacc, hocr, hwl, hnotmem, hrej, hna]
  · intro hrej hconf
    simp [stepIter, hshot, himg, hacc, hocr, hwl, hnotmem, hrej, hconf]

/-- C3 witness: the aligned case — a single reject button 5 px below the
accept button is tapped, then confirm. -/
theorem C3_witness :
    stepIter ["W"] false alignedIter initState =
      IterOut.next { initState with
        events := initState.events ++
          [Event.logRejected "XYZ" "xyz", Event.tapReject ⟨50, 305⟩, Event.tapConfirm],
        processed := initState.processed + 1 } :=
  (C3_amended ["W"] alignedIter initState "XYZ" "xyz" ⟨40, 300⟩ [] (by decide) rfl rfl
    (by decide) rfl (by decide)).1 ⟨50, 305⟩ [] (by decide) (by decide) rfl


/-- C6 (confirmed): with a non-empty whitelist, a candidate's accept control
is tapped iff its extracted alliance text is an exact member of the
whitelist; every non-member candidate's trace starts with the rejection log
entry (never silently dropped) and contains no accept tap. -/
theorem C6_membership_policy (wl : List String) (md : Bool) (env : IterEnv) (s : LoopState)
    (a r : String) (c : Coord) (cr : List Coord)
    (hwl : 0 < wl.length)
    (hshot : env.screenshotOk = some true)
    (himg : env.imreadOk = true)
    (hacc : find_accept_buttons env.acceptMatches = c :: cr)
    (hocr : env.ocr = some (a, r)) :
    (wl.contains a = true →
      stepIter wl md env s =
        IterOut.next { s with
          events := s.events ++ [Event.tapAccept c],
          accepted := s.accepted + 1,
          processed := s.processed + 1 }) ∧
    (wl.contains a = false →
      ∃ tail, (stepIter wl md env s).state.events = s.events ++ Event.logRejected a r :: tail ∧
        ∀ d, Event.tapAccept d ∉ tail) := by
  constructor
  · intro hmem
    have hm : a ∈ wl := by simpa using hmem
    simp [stepIter, hshot, himg, hacc, hocr, hwl, hm]
  · intro hmem
    have hm : ¬ a ∈ wl := by simpa using hmem
    cases hmd : md with
    | false =>
      cases hrej : find_reject_buttons env.rejectMatches with
      | nil =>
        cases hconf : env.confirmTap with
        | none =>
          refine ⟨[], ?_, by simp⟩
          simp [stepIter, hshot, himg, hacc, hocr, hwl, hm, hrej, hconf, IterOut.state]
        | some b =>
          cases b with
          | true =>
            refine ⟨[Event.tapConfirm], ?_, by simp⟩
            simp [stepIter, hshot, himg, hacc, hocr, hwl, hm, hrej, hconf, IterOut.state]
          | false =>
            refine ⟨[], ?_, by simp⟩
            simp [stepIter, hshot, himg, hacc, hocr, hwl, hm, hrej, hconf, IterOut.state]
      | cons rb rr =>
        by_cases halign : (rb.y - c.y).natAbs ≤ 10
        · cases hconf : env.confirmTap with
          | none =>
            refine ⟨[Event.tapReject rb], ?_, by simp⟩
            simp [stepIter, hshot, himg, hacc, hocr, hwl, hm, hrej, halign, hconf,
              IterOut.state]
          | some b =>
            cases b with
            | true =>
              refine ⟨[Event.tapReject rb, Event.tapConfirm], ?_, by simp⟩
              simp [stepIter, hshot, himg, hacc, hocr, hwl, hm, hrej, halign, hconf,
                IterOut.state]
            | false =>
              refine ⟨[Event.tapReject rb], ?_, by simp⟩
              simp [stepIter, hshot, himg, hacc, hocr, hwl, hm, hrej, halign, hconf,
                IterOut.state]
        · refine ⟨[], ?_, by simp⟩
          simp [stepIter, hshot, himg, hacc, hocr, hwl, hm, hrej, halign, IterOut.state]
    | true =>
      cases hrej : find_reject_buttons env.rejectMatches with
      | nil =>
        cases hconf : env.confirmTap with
        | none =>
          refine ⟨[Event.beep], ?_, by simp⟩
          simp [stepIter, hshot, himg, hacc, hocr, hwl, hm, hrej, hconf, IterOut.state]
        | some b =>
          cases b with
          | true =>
            refine ⟨[Event.beep, Event.tapConfirm], ?_, by simp⟩
            simp [stepIter, hshot, himg, hacc, hocr, hwl, hm, hrej, hconf, IterOut.state]
          | false =>
            refine ⟨[Event.beep], ?_, by simp⟩
            simp [stepIter, hshot, himg, hacc, hocr, hwl, hm, hrej, hconf, IterOut.state]
      | cons rb rr =>
        by_cases halign : (rb.y - c.y).natAbs ≤ 10
        · cases hconf : env.confirmTap with
          | none =>
            refine ⟨[Event.beep, Event.tapReject rb], ?_, by simp⟩
            simp [stepIter, hshot, himg, hacc, hocr, hwl, hm, hrej, halign, hconf,
              IterOut.state]
          | some b =>
            cases b with
            | true =>
              refine ⟨[Event.beep, Event.tapReject rb, Event.tapConfirm], ?_, by simp⟩
              simp [stepIter, hshot, himg, hacc, hocr, hwl, hm, hrej, halign, hconf,
                IterOut.state]
            | false =>
              refine ⟨[Event.beep, Event.tapReject rb], ?_, by simp⟩
              simp [stepIter, hshot, himg, hacc, hocr, hwl, hm, hrej, halign, hconf,
                IterOut.state]
        · refine ⟨[Event.beep], ?_, by simp⟩
          simp [stepIter, hshot, himg, hacc, hocr, hwl, hm, hrej, halign, IterOut.state]

/-- C6 witness: a whitelisted candidate is accepted. -/
theorem C6_witness :
    stepIter ["AAA"] false memberIter initState =
      IterOut.next { initState with
        events := initState.events ++ [Event.tapAccept ⟨10, 20⟩],
        accepted := initState.accepted + 1,
        processed := initState.processed + 1 } :=
  (C6_membership_policy ["AAA"] false memberIter initState "AAA" "AAA raw" ⟨10, 20⟩ []
    (by decide) rfl rfl (by decide) rfl).1 (by decide)

/-! ### Applicant scanner -/

lemma fpwa_mem (secTypes : List String) (templ : String → List Coord)
    (badges : List Coord) (offx offy : Int) (t : String) :
    t ∈ find_positions_with_applicants secTypes templ badges offx offy ↔
      (t ∈ secTypes ∧ ∃ p, (templ t).head? = some p ∧
        ∃ b ∈ badges, |b.x - p.x| ≤ offx ∧ |b.y - p.y| ≤ offy) := by
  unfold find_positions_with_applicants
  by_cases hb : badges.isEmpty = true
  · have hnil : badges = [] := List.isEmpty_iff.mp hb
    subst hnil
    simp
  · rw [Bool.not_eq_true] at hb
    simp only [hb, Bool.false_eq_true, if_false]
    constructor
    · intro h
      rcases List.mem_map.mp h with ⟨tp, htp, rfl⟩
      rcases List.mem_filter.mp htp with ⟨hmem, hany⟩
      rcases List.mem_filterMap.mp hmem with ⟨t0, ht0, hmap⟩
      rcases Option.map_eq_some'.mp hmap with ⟨p, hp, heq⟩
      subst heq
      rcases List.any_eq_true.mp hany with ⟨b, hbmem, hnear⟩
      simp only [nearBadge, decide_eq_true_eq] at hnear
      exact ⟨ht0, p, hp, b, hbmem, hnear⟩
    · rintro ⟨ht, p, hp, b, hbmem, h1, h2⟩
      refine List.mem_map.mpr ⟨(t, p), ?_, rfl⟩
      refine List.mem_filter.mpr ⟨?_, ?_⟩
      · exact List.mem_filterMap.mpr ⟨t, ht, by rw [hp]; rfl⟩
      · exact List.any_eq_true.mpr
          ⟨b, hbmem, by simp only [nearBadge, decide_eq_true_eq]; exact ⟨h1, h2⟩⟩

lemma fpwa_nodup (secTypes : List String) (templ : String → List Coord)
    (badges : List Coord) (offx offy : Int) (hnd : secTypes.Nodup) :
    (find_positions_with_applicants secTypes templ badges offx offy).Nodup := by
  unfold find_positions_with_applicants
  by_cases hb : badges.isEmpty = true
  · simp [hb]
  · rw [Bool.not_eq_true] at hb
    simp only [hb, Bool.false_eq_true, if_false]
    have hfst : ((secTypes.filterMap (fun t => ((templ t).head?).map (fun c => (t, c)))).map
        Prod.fst).Nodup := by
      rw [List.map_filterMap]
      refine List.Nodup.filterMap ?_ hnd
      intro a a' b hb1 hb2
      simp only [Option.map_map, Option.mem_def, Option.map_eq_some'] at hb1 hb2
      rcases hb1 with ⟨c1, _, h1⟩
      rcases hb2 with ⟨c2, _, h2⟩
      have e1 : b = a := by simpa using h1.symm
      have e2 : b = a' := by simpa using h2.symm
      rw [← e1, ← e2]
    exact hfst.sublist ((List.filter_sublist _).map Prod.fst)

/-- C5 (confirmed): `find_positions_with_applicants` over the fixed catalog
reports a position iff its icon was found (first template match) and some
detected badge lies within the configured offset box of that icon; each
position occurs at most once in the result; and with no badges detected the
result is empty. -/
theorem C5_applicant_scan (templ : String → List Coord) (badges : List Coord)
    (offx offy : Int) :
    (∀ t, t ∈ find_positions_with_applicants secretaryTypes templ badges offx offy ↔
      (t ∈ secretaryTypes ∧ ∃ p, (templ t).head? = some p ∧
        ∃ b ∈ badges, |b.x - p.x| ≤ offx ∧ |b.y - p.y| ≤ offy)) ∧
    (∀ t, (find_positions_with_applicants secretaryTypes templ badges offx offy).count t ≤ 1) ∧
    (badges = [] → find_positions_with_applicants secretaryTypes templ badges offx offy = []) := by
  refine ⟨fun t => fpwa_mem secretaryTypes templ badges offx offy t, ?_, ?_⟩
  · intro t
    exact List.nodup_iff_count_le_one.mp
      (fpwa_nodup secretaryTypes templ badges offx offy (by decide)) t
  · intro h
    subst h
    simp [find_positions_with_applicants]

/-- C5 witness: a badge at (610, 640) is within the default (150, 50) box
of the science icon at (500, 600); and no badges yields no positions. -/
theorem C5_witness :
    "science" ∈ find_positions_with_applicants secretaryTypes templW [⟨610, 640⟩] 150 50 ∧
      find_positions_with_applicants secretaryTypes templW [] 150 50 = [] := by
  constructor
  · exact ((C5_applicant_scan templW [⟨610, 640⟩] 150 50).1 "science").mpr
      ⟨by decide, ⟨500, 600⟩, by decide, ⟨610, 640⟩, by decide, by decide, by decide⟩
  · exact (C5_applicant_scan templW [] 150 50).2.2 rfl

/-! ### Eviction scanner -/

lemma removeStep_other (tc : List (String × Int)) (now : Int) (vac ic : String → Bool)
    (acc : List String × (String → Int)) (t u : String) (hne : t ≠ u) :
    (removeStep tc now vac ic acc u).2 t = acc.2 t ∧
    (t ∈ (removeStep tc now vac ic acc u).1 ↔ t ∈ acc.1) := by
  unfold removeStep
  cases lookupCfg tc u with
  | none => simp
  | some d =>
    by_cases h0 : d = 0
    · simp [h0]
    · simp only [h0, if_false]
      by_cases h1 : now - acc.2 u < d
      · simp [h1]
      · simp only [h1, if_false]
        by_cases h2 : vac u = true
        · simp [h2, updateTime, hne]
        · rw [Bool.not_eq_true] at h2
          simp only [h2, Bool.false_eq_true, if_false]
          by_cases h3 : ic u = true
          · simp [h3, hne]
          · rw [Bool.not_eq_true] at h3
            simp [h3]

lemma foldl_removeStep_not_mem (tc : List (String × Int)) (now : Int)
    (vac ic : String → Bool) (t : String) :
    ∀ (l : List String) (acc : List String × (String → Int)), t ∉ l →
      ((l.foldl (removeStep tc now vac ic) acc).2 t = acc.2 t ∧
       (t ∈ (l.foldl (removeStep tc now vac ic) acc).1 ↔ t ∈ acc.1)) := by
  intro l
  induction l with
  | nil => intro acc _; simp
  | cons u rest ih =>
    intro acc hmem
    have hne : t ≠ u := by intro h; exact hmem (by simp [h])
    have hstep := removeStep_other tc now vac ic acc t u hne
    have hrest := ih (removeStep tc now vac ic acc u) (by intro h; exact hmem (by simp [h]))
    simp only [List.foldl_cons]
    exact ⟨hrest.1.trans hstep.1, hrest.2.trans hstep.2⟩

lemma foldl_removeStep_spec (tc : List (String × Int)) (now : Int) (vac ic : String → Bool)
    (t : String) (D : Int) (hD : lookupCfg tc t = some D) (hD0 : D ≠ 0) :
    ∀ (l : List String) (acc : List String × (String → Int)), l.Nodup → t ∈ l →
      t ∉ acc.1 →
      ((t ∈ (l.foldl (removeStep tc now vac ic) acc).1 ↔
        (D ≤ now - acc.2 t ∧ vac t = false ∧ ic t = true)) ∧
       ((l.foldl (removeStep tc now vac ic) acc).2 t =
        if D ≤ now - acc.2 t ∧ vac t = true then now else acc.2 t)) := by
  intro l
  induction l with
  | nil => intro acc _ h; simp at h
  | cons u rest ih =>
    intro acc hnd hmem hnotin
    by_cases heq : t = u
    · subst heq
      have hrest_notin : t ∉ rest := (List.nodup_cons.mp hnd).1
      simp only [List.foldl_cons]
      have hnm := foldl_removeStep_not_mem tc now vac ic t rest
        (removeStep tc now vac ic acc t) hrest_notin
      by_cases h1 : now - acc.2 t < D
      · have hstep : removeStep tc now vac ic acc t = acc := by
          unfold removeStep
          rw [hD]
          simp [hD0, h1]
        rw [hstep] at hnm ⊢
        refine ⟨hnm.2.trans ?_, ?_⟩
        · constructor
          · intro h; exact absurd h hnotin
          · rintro ⟨hle, _⟩; omega
        · rw [hnm.1]
          have hcond : ¬ (D ≤ now - acc.2 t ∧ vac t = true) := by
            rintro ⟨hle, _⟩; omega
          rw [if_neg hcond]
      · by_cases h2 : vac t = true
        · have hstep : removeStep tc now vac ic acc t = (acc.1, updateTime acc.2 t now) := by
            unfold removeStep
            rw [hD]
            simp [hD0, h1, h2]
          rw [hstep] at hnm ⊢
          refine ⟨hnm.2.trans ?_, ?_⟩
          · constructor
            · intro h; exact absurd h hnotin
            · rintro ⟨_, hv, _⟩; rw [h2] at hv; cases hv
          · rw [hnm.1]
            have hcond : D ≤ now - acc.2 t ∧ vac t = true := ⟨by omega, h2⟩
            rw [if_pos hcond]
            simp [updateTime]
        · rw [Bool.not_eq_true] at h2
          by_cases h3 : ic t = true
          · have hstep : removeStep tc now vac ic acc t = (acc.1 ++ [t], acc.2) := by
              unfold removeStep
              rw [hD]
              simp [hD0, h1, h2, h3]
            rw [hstep] at hnm ⊢
            refine ⟨hnm.2.trans ?_, ?_⟩
            · constructor
              · intro _; exact ⟨by omega, h2, h3⟩
              · intro _; simp
            · rw [hnm.1]
              have hcond : ¬ (D ≤ now - acc.2 t ∧ vac t = true) := by
                rintro ⟨_, hv⟩; rw [h2] at hv; cases hv
              rw [if_neg hcond]
          · rw [Bool.not_eq_true] at h3
            have hstep : removeStep tc now vac ic acc t = acc := by
              unfold removeStep
              rw [hD]
              simp [hD0, h1, h2, h3]
            rw [hstep] at hnm ⊢
            refine ⟨hnm.2.trans ?_, ?_⟩
            · constructor
              · intro h; exact absurd h hnotin
              · rintro ⟨_, _, hi⟩; rw [h3] at hi; cases hi
            · rw [hnm.1]
              have hcond : ¬ (D ≤ now - acc.2 t ∧ vac t = true) := by
                rintro ⟨_, hv⟩; rw [h2] at hv; cases hv
              rw [if_neg hcond]
    · have hother := removeStep_other tc now vac ic acc t u heq
      have hrest_mem : t ∈ rest := by
        rcases List.mem_cons.mp hmem with h | h
        · exact absurd h heq
        · exact h
      have hnd_rest : rest.Nodup := (List.nodup_cons.mp hnd).2
      have hni : t ∉ (removeStep tc now vac ic acc u).1 := by
        rw [hother.2]
        exact hnotin
      have hmain := ih (removeStep tc now vac ic acc u) hnd_rest hrest_mem hni
      simp only [List.foldl_cons]
      rw [hother.1] at hmain
      exact hmain

lemma lookupCfg_ne_nil (tc : List (String × Int)) (t : String) (d : Int)
    (h : lookupCfg tc t = some d) : tc.isEmpty = false := by
  cases tc with
  | nil => simp [lookupCfg] at h
  | cons a l => rfl

lemma foldl_removeStep_zero (tc : List (String × Int)) (now : Int) (vac ic : String → Bool)
    (t : String) (h0 : lookupCfg tc t = some 0) :
    ∀ (l : List String) (acc : List String × (String → Int)),
      ((l.foldl (removeStep tc now vac ic) acc).2 t = acc.2 t ∧
       (t ∈ (l.foldl (removeStep tc now vac ic) acc).1 ↔ t ∈ acc.1)) := by
  intro l
  induction l with
  | nil => intro acc; simp
  | cons u rest ih =>
    intro acc
    simp only [List.foldl_cons]
    by_cases heq : t = u
    · subst heq
      have hstep : removeStep tc now vac ic acc t = acc := by
        unfold removeStep
        rw [h0]
        simp
      rw [hstep]
      exact ih acc
    · have hother := removeStep_other tc now vac ic acc t u heq
      have hrest := ih (removeStep tc now vac ic acc u)
      exact ⟨hrest.1.trans hother.1, hrest.2.trans hother.2⟩

/-- C8 (counterexample): the claim quantifies over every configured delay
`D`, including `D = 0`.  With `title_cfg = [("science", 0)]`,
`last_approve = now - 1000` (so `d = 1000 ≥ 0 = D`), the position not
vacant and its icon present, the claim makes `science` eviction-eligible
and included; the code's falsy-value guard (`if not auto_remove_delay`)
skips a zero delay before the cooldown comparison, so nothing is returned. -/
theorem C8_counterexample :
    (find_positions_to_remove (some [("science", 0)]) secretaryTypes
      (fun _ => 0) 1000 (fun _ => false) (fun _ => true)).1 = [] := by decide

/-- C8 (amended): for every position with a configured NONZERO eviction
delay `D`, with `d = now - last_approve`, the position passes the cooldown
gate iff `d ≥ D`; it is included in the eviction list iff additionally it
is not vacant and its icon is found; each position's cooldown is evaluated
against its own `last_approve` independently; and a position past cooldown
that is detected vacant is skipped with its timer reset to `now` instead
of being included. -/
theorem C8_amended (tc : List (String × Int)) (secTypes : List String)
    (la0 : String → Int) (now : Int) (vac ic : String → Bool) (t : String) (D : Int)
    (hnd : secTypes.Nodup) (ht : t ∈ secTypes)
    (hD : lookupCfg tc t = some D) (hD0 : D ≠ 0) :
    (t ∈ (find_positions_to_remove (some tc) secTypes la0 now vac ic).1 ↔
      (D ≤ now - la0 t ∧ vac t = false ∧ ic t = true)) ∧
    (vac t = true → D ≤ now - la0 t →
      (find_positions_to_remove (some tc) secTypes la0 now vac ic).2 t = now ∧
        t ∉ (find_positions_to_remove (some tc) secTypes la0 now vac ic).1) := by
  have hne := lookupCfg_ne_nil tc t D hD
  have hspec := foldl_removeStep_spec tc now vac ic t D hD hD0 secTypes ([], la0)
    hnd ht (by simp)
  unfold find_positions_to_remove
  simp only [hne, Bool.false_eq_true, if_false]
  refine ⟨hspec.1, ?_⟩
  intro hv hle
  constructor
  · rw [hspec.2, if_pos ⟨hle, hv⟩]
  · rw [hspec.1]
    rintro ⟨_, hvf, _⟩
    rw [hv] at hvf
    cases hvf

/-- C8 witness: `science` with delay 300 s, elapsed 1000 s, not vacant,
icon present, is returned for eviction. -/
theorem C8_witness :
    "science" ∈ (find_positions_to_remove (some [("science", 300)]) secretaryTypes
      (fun _ => 0) 1000 (fun _ => false) (fun _ => true)).1 :=
  ((C8_amended [("science", 300)] secretaryTypes (fun _ => 0) 1000 (fun _ => false)
    (fun _ => true) "science" 300 (by decide) (by decide) (by decide) (by decide)).1).mpr
    ⟨by decide, rfl, rfl⟩

/-- C10 (confirmed): a position whose configured auto-remove delay is 0
seconds is treated exactly as an unconfigured one: the falsy-value guard
skips it before the cooldown comparison, so it is never returned for
eviction and its `last_approve` timer is left untouched, regardless of the
elapsed time. -/
theorem C10_zero_delay (tc : List (String × Int)) (secTypes : List String)
    (la0 : String → Int) (now : Int) (vac ic : String → Bool) (t : String)
    (h0 : lookupCfg tc t = some 0) :
    t ∉ (find_positions_to_remove (some tc) secTypes la0 now vac ic).1 ∧
    (find_positions_to_remove (some tc) secTypes la0 now vac ic).2 t = la0 t := by
  have hne := lookupCfg_ne_nil tc t 0 h0
  have hz := foldl_removeStep_zero tc now vac ic t h0 secTypes ([], la0)
  unfold find_positions_to_remove
  simp only [hne, Bool.false_eq_true, if_false]
  constructor
  · rw [hz.2]
    simp
  · exact hz.1

/-- C10 witness: `military` configured with delay 0, huge elapsed time,
not vacant and icon present — still skipped, timer untouched. -/
theorem C10_witness :
    "military" ∉ (find_positions_to_remove (some [("military", 0)]) secretaryTypes
      (fun _ => 5) 999999 (fun _ => false) (fun _ => true)).1 ∧
    (find_positions_to_remove (some [("military", 0)]) secretaryTypes
      (fun _ => 5) 999999 (fun _ => false) (fun _ => true)).2 "military" = 5 :=
  C10_zero_delay [("military", 0)] secretaryTypes (fun _ => 5) 999999
    (fun _ => false) (fun _ => true) "military" (by decide)
